import Mathlib

/-!
Verification development for the bucket.social CAN service.

The TypeScript sources are shallowly embedded as Lean functions:
strings are modelled as `List Char`, byte buffers as `List Nat`,
ISO timestamps as `Nat`, JavaScript objects used as maps as
insertion-ordered association lists, and the Redis / AT Protocol
backing stores as explicit state records.  All definitions follow the
repository's source files; the external AT Protocol store is modelled
by its contract (content-addressed blob storage, record storage keyed
by the sanitized record key).
-/

namespace Bucket

/-! ### Key sanitization (`AtProtocolService.sanitizeKey`) -/

/-- Character class `[a-z0-9.-]` used by `sanitizeKey`'s replacement regex. -/
def isAllowedKeyChar (c : Char) : Bool :=
  ('a' ≤ c && c ≤ 'z') || ('0' ≤ c && c ≤ '9') || c == '.' || c == '-'

/-- Embedding of `AtProtocolService.sanitizeKey`: the chained
`toLowerCase → replace(/[^a-z0-9.-]/g,'-') → replace(/^-+|-+$/g,'') → slice(0,64)`
pipeline from the source (ASCII case mapping). -/
def sanitizeKey (key : List Char) : List Char :=
  (((((key.map Char.toLower).map
      (fun c => if isAllowedKeyChar c then c else '-')).dropWhile
      (fun c => c == '-')).reverse.dropWhile (fun c => c == '-')).reverse).take 64

/-- Stage 1 of the spec's description: lower-case the key. -/
def lowerStage (key : List Char) : List Char := key.map Char.toLower

/-- Stage 2 of the spec's description: replace every character outside
`[a-z0-9.-]` with a hyphen. -/
def replaceStage (key : List Char) : List Char :=
  key.map (fun c => if isAllowedKeyChar c then c else '-')

/-- Stage 3 of the spec's description: trim leading and trailing hyphens. -/
def trimStage (key : List Char) : List Char :=
  ((key.dropWhile (fun c => c == '-')).reverse.dropWhile (fun c => c == '-')).reverse

/-- Stage 4 of the spec's description: truncate to 64 characters. -/
def truncateStage (key : List Char) : List Char := key.take 64

/-- The spec's wording of sanitization: lower-case, replace, trim,
truncate to 64 characters, in that order. -/
def sanitizeKeySpec (key : List Char) : List Char :=
  truncateStage (trimStage (replaceStage (lowerStage key)))

/-! ### PDS endpoint extraction (`DomainRegistryService.extractPdsFromHandle`) -/

/-- Splitting a character list on `'.'`, mirroring JavaScript's
`String.prototype.split('.')` (an input without a dot yields one part;
each dot adds a part, possibly empty). -/
def splitOnDot : List Char → List (List Char)
  | [] => [[]]
  | c :: rest =>
    if c = '.' then [] :: splitOnDot rest
    else
      match splitOnDot rest with
      | [] => [[c]]
      | p :: ps => (c :: p) :: ps

/-- Joining parts with `'.'`, mirroring `Array.prototype.join('.')`. -/
def joinDot (parts : List (List Char)) : List Char :=
  List.intercalate ['.'] parts

/-- Scheme string prepended by `extractPdsFromHandle`. -/
def httpsScheme : List Char := "https://".toList

/-- The well-known public endpoint returned by default. -/
def defaultPds : List Char := "https://bsky.social".toList

/-- Embedding of `DomainRegistryService.extractPdsFromHandle`: if the handle
contains a dot, split on dots and, when at least two parts exist, build
`https://` plus the last two parts joined by a dot; otherwise default to
`https://bsky.social`. -/
def extractPdsFromHandle (handle : List Char) : List Char :=
  if handle.contains '.' then
    let parts := splitOnDot handle
    if 2 ≤ parts.length then
      httpsScheme ++ joinDot (parts.drop (parts.length - 2))
    else defaultPds
  else defaultPds

/-- The spec's wording of endpoint derivation: the last two dot-separated
labels of the handle as a hostname prefixed with `https://`, defaulting to
the well-known public endpoint when the handle has fewer than two labels. -/
def extractPdsSpec (handle : List Char) : List Char :=
  let labels := splitOnDot handle
  if labels.length < 2 then defaultPds
  else httpsScheme ++ joinDot (labels.drop (labels.length - 2))

theorem splitOnDot_ne_nil (l : List Char) : splitOnDot l ≠ [] := by
  cases l with
  | nil => simp [splitOnDot]
  | cons c rest =>
    unfold splitOnDot
    by_cases h : c = '.'
    · simp [h]
    · simp only [h, if_neg]
      cases splitOnDot rest <;> simp

theorem splitOnDot_length (l : List Char) :
    (splitOnDot l).length = l.countP (fun c => c == '.') + 1 := by
  induction l with
  | nil => simp [splitOnDot]
  | cons c rest ih =>
    by_cases h : c = '.'
    · subst h
      simp [splitOnDot, List.countP_cons, ih]
    · unfold splitOnDot
      rw [if_neg h]
      cases hsp : splitOnDot rest with
      | nil => exact absurd hsp (splitOnDot_ne_nil rest)
      | cons p ps =>
        rw [hsp] at ih
        simp only [List.length_cons] at ih ⊢
        simp [List.countP_cons, h, ih]

theorem contains_dot_iff_two_le (l : List Char) :
    l.contains '.' = true ↔ 2 ≤ (splitOnDot l).length := by
  have hmem : l.contains '.' = true ↔ '.' ∈ l := by simp
  have hcp : 0 < l.countP (fun c => c == '.') ↔ '.' ∈ l := by
    rw [List.countP_pos_iff]
    constructor
    · rintro ⟨a, ha, hp⟩
      have ha' : a = '.' := by simpa using hp
      exact ha' ▸ ha
    · intro hm
      exact ⟨'.', hm, by simp⟩
  rw [splitOnDot_length, hmem, ← hcp]
  omega

/-! ### Data model (`src/types/index.ts`) -/

/-- Embedding of the `BlobInfo` interface.  The content identifier is
modelled as the byte sequence itself (the AT Protocol blob store is
content-addressed, so the cid is a deterministic function of the bytes). -/
structure BlobInfo where
  cid : List Nat
  mimeType : String
  size : Nat
  uploadedAt : Nat
deriving DecidableEq

/-- Embedding of the `BlobVersion` interface (`BlobInfo` plus `version`
and optional `comment`). -/
structure BlobVersion where
  info : BlobInfo
  version : Nat
  comment : Option String
deriving DecidableEq

/-- Embedding of the `CANMappingRecord` interface.  The `versions`
JavaScript object is modelled as an insertion-ordered association list
(JavaScript objects preserve insertion order for string keys), and its
optionality is kept.  `versioningEnabled` is optional in TypeScript with
absence read as `false`, so it is modelled as `Bool`. -/
structure CANMappingRecord where
  key : List Char
  current : BlobInfo
  versions : Option (List (Nat × BlobVersion))
  createdAt : Nat
  updatedAt : Nat
  versioningEnabled : Bool
deriving DecidableEq

/-- JavaScript object spread `\x7b...vs, [vid]: v\x7d`: an existing key keeps
its position and takes the new value; a fresh key is appended. -/
def upsertVersion (vs : List (Nat × BlobVersion)) (vid : Nat) (v : BlobVersion) :
    List (Nat × BlobVersion) :=
  if vs.any (fun p => p.1 == vid) then
    vs.map (fun p => if p.1 == vid then (vid, v) else p)
  else vs ++ [(vid, v)]

/-- System state for one owner: the owner's AT Protocol repository
(records keyed by sanitized record key, content-addressed blob store)
plus the Redis blob cache namespaces of `BlobCacheService` (keyed by the
raw request key; the cache is modelled because the spec's cache claims
refer to it, and the blob routes are embedded exactly as written — they
do not touch it). -/
structure SysState where
  records : List Char → Option CANMappingRecord
  blobs : List Nat → Option (List Nat)
  cacheMapping : List Char → Option CANMappingRecord
  cacheMetadata : List Char → Option BlobInfo

/-- The empty system state. -/
def emptySys : SysState :=
  { records := fun _ => none, blobs := fun _ => none,
    cacheMapping := fun _ => none, cacheMetadata := fun _ => none }

/-- Content identifier of a byte sequence (content-addressed store). -/
def cidOf (bytes : List Nat) : List Nat := bytes

/-- Adapter `uploadBlob`: store the bytes under their content identifier. -/
def uploadBlobState (st : SysState) (bytes : List Nat) : SysState :=
  { st with blobs := fun c => if c = cidOf bytes then some bytes else st.blobs c }

/-- Embedding of `AtProtocolService.createBlobInfo` composed with the blob
reference returned by `uploadBlob` (server-assigned cid and size). -/
def mkBlobInfo (bytes : List Nat) (mime : String) (now : Nat) : BlobInfo :=
  { cid := cidOf bytes, mimeType := mime, size := bytes.length, uploadedAt := now }

/-- Embedding of `AtProtocolService.getMappingRecord`: fetch by the
sanitized record key; a missing record is `none`. -/
def getMappingRecord (st : SysState) (key : List Char) : Option CANMappingRecord :=
  st.records (sanitizeKey key)

/-- Embedding of `AtProtocolService.putMappingRecord`: store the record
under the sanitized form of the record's own `key` field. -/
def putMappingRecord (st : SysState) (record : CANMappingRecord) : SysState :=
  { st with records := fun rk =>
      if rk = sanitizeKey record.key then some record else st.records rk }

/-- Embedding of `AtProtocolService.deleteMappingRecord`: remove the record
stored under the sanitized request key. -/
def deleteMappingRecord (st : SysState) (key : List Char) : SysState :=
  { st with records := fun rk =>
      if rk = sanitizeKey key then none else st.records rk }

/-! ### Blob cache service (`BlobCacheService`) -/

/-- Embedding of `BlobCacheService.setBlobMapping` for the fixed owner. -/
def setBlobMapping (st : SysState) (key : List Char) (mapping : CANMappingRecord) :
    SysState :=
  { st with cacheMapping := fun k => if k = key then some mapping else st.cacheMapping k }

/-- Embedding of `BlobCacheService.setBlobMetadata` for the fixed owner. -/
def setBlobMetadata (st : SysState) (key : List Char) (metadata : BlobInfo) :
    SysState :=
  { st with cacheMetadata := fun k => if k = key then some metadata else st.cacheMetadata k }

/-- Embedding of `BlobCacheService.invalidateBlobMapping`: deletes the
mapping and metadata entries for the exact key. -/
def invalidateBlobMapping (st : SysState) (key : List Char) : SysState :=
  { st with
    cacheMapping := fun k => if k = key then none else st.cacheMapping k,
    cacheMetadata := fun k => if k = key then none else st.cacheMetadata k }

/-! ### Blob routes (`router.post/get/delete` in the blob routes file) -/

/-- The JSON body of a successful upload response. -/
structure UploadResponse where
  key : List Char
  cid : List Nat
  size : Nat
  mimeType : String
  version : Option Nat
deriving DecidableEq

/-- Embedding of `router.post('/:key')`: read the existing record, compute
`shouldVersion`, upload the blob, build the new `CANMappingRecord` by the
three-way branch of the source, persist it, and answer.  Every
`new Date().toISOString()` in one request is modelled as the single
timestamp `now`. -/
def uploadRoute (st : SysState) (key : List Char) (fileBytes : List Nat)
    (fileMime : String) (comment : Option String) (enableVersioning : Bool)
    (now : Nat) : UploadResponse × SysState :=
  let mimeType := if fileMime = "" then "application/octet-stream" else fileMime
  let existingRecord := getMappingRecord st key
  let shouldVersion := enableVersioning ||
    (match existingRecord with
     | some ex => ex.versioningEnabled
     | none => false)
  let st1 := uploadBlobState st fileBytes
  let blobInfo := mkBlobInfo fileBytes mimeType now
  let record : CANMappingRecord :=
    match existingRecord with
    | some ex =>
      if shouldVersion then
        let newVersion : BlobVersion := { info := blobInfo, version := now, comment := comment }
        { ex with
          current := blobInfo,
          versions := some (upsertVersion (ex.versions.getD []) now newVersion),
          updatedAt := now,
          versioningEnabled := shouldVersion }
      else
        { ex with current := blobInfo, updatedAt := now }
    | none =>
      { key := key, current := blobInfo,
        versions := if shouldVersion then some [] else none,
        createdAt := now, updatedAt := now, versioningEnabled := shouldVersion }
  let st2 := putMappingRecord st1 record
  ({ key := key, cid := blobInfo.cid, size := blobInfo.size, mimeType := mimeType,
     version := if shouldVersion && existingRecord.isSome then some now else none }, st2)

/-- Outcome of the blob retrieval route. -/
inductive GetResult where
  | ok (data : List Nat) (mimeType : String) (size : Nat) (version : Option Nat)
  | blobNotFound
  | versionNotFound
  | downloadError
deriving DecidableEq

/-- Embedding of `router.get('/:key')` (authenticated path): fetch the
record; the source's guard `if (version && record.versions)` selects the
requested version only when the record carries a `versions` object, else
the current blob is served; then download by cid. -/
def getRoute (st : SysState) (key : List Char) (version : Option Nat) : GetResult :=
  match getMappingRecord st key with
  | none => .blobNotFound
  | some record =>
    match version, record.versions with
    | some v, some vs =>
      match List.lookup v vs with
      | none => .versionNotFound
      | some vinfo =>
        match st.blobs vinfo.info.cid with
        | none => .downloadError
        | some data => .ok data vinfo.info.mimeType vinfo.info.size (some v)
    | _, _ =>
      match st.blobs record.current.cid with
      | none => .downloadError
      | some data => .ok data record.current.mimeType record.current.size none

/-- Descending-by-`uploadedAt` comparison used by the version list sort. -/
def vGe (a b : BlobVersion) : Prop := b.info.uploadedAt ≤ a.info.uploadedAt

instance : DecidableRel vGe := fun a b => Nat.decLe b.info.uploadedAt a.info.uploadedAt

instance : IsTotal BlobVersion vGe :=
  ⟨fun a b => Nat.le_total b.info.uploadedAt a.info.uploadedAt⟩

instance : IsTrans BlobVersion vGe :=
  ⟨fun _ _ _ h1 h2 => Nat.le_trans h2 h1⟩

/-- The JSON body of the version listing route. -/
structure ListVersionsResponse where
  key : List Char
  current : BlobInfo
  versions : List BlobVersion
deriving DecidableEq

/-- Embedding of `router.get('/:key/versions')`: `Object.values` of the
`versions` object (insertion order, empty when absent), sorted by
`uploadedAt` descending with JavaScript's stable `Array.prototype.sort`,
modelled by the stable insertion sort. -/
def listVersionsRoute (st : SysState) (key : List Char) : Option ListVersionsResponse :=
  match getMappingRecord st key with
  | none => none
  | some record =>
    let vals := (record.versions.getD []).map Prod.snd
    some { key := key, current := record.current,
           versions := List.insertionSort vGe vals }

/-- Outcome of the blob deletion route. -/
inductive DeleteResult where
  | versionDeleted
  | blobDeleted
  | blobNotFound
  | versionNotFound
deriving DecidableEq

/-- Embedding of `router.delete('/:key')`: with a `version` argument,
remove that single entry from `versions` (VERSION_NOT_FOUND when the
object or the entry is absent), refresh `updatedAt`, and persist the
record; without one, delete the entire record. -/
def deleteRoute (st : SysState) (key : List Char) (version : Option Nat) (now : Nat) :
    DeleteResult × SysState :=
  match getMappingRecord st key with
  | none => (.blobNotFound, st)
  | some record =>
    match version with
    | some v =>
      match record.versions with
      | none => (.versionNotFound, st)
      | some vs =>
        match List.lookup v vs with
        | none => (.versionNotFound, st)
        | some _ =>
          let record2 := { record with
            versions := some (vs.filter (fun p => p.1 != v)),
            updatedAt := now }
          (.versionDeleted, putMappingRecord st record2)
    | none => (.blobDeleted, deleteMappingRecord st key)

/-! ### Domain registry (`DomainRegistryService` and `routes/domains.ts`) -/

/-- Status field of a `DomainMapping`. -/
inductive DomainStatus where
  | active
  | pending
  | suspended
deriving DecidableEq

/-- Settings block of a `DomainMapping`. -/
structure DomainSettings where
  publicAccess : Bool
  allowedMimeTypes : List String
  maxFileSize : Nat
deriving DecidableEq

/-- Embedding of the `DomainMapping` interface. -/
structure DomainMapping where
  domain : List Char
  userHandle : String
  userDid : String
  createdAt : Nat
  updatedAt : Nat
  status : DomainStatus
  settings : DomainSettings
deriving DecidableEq

/-- Redis-backed registry state: the per-domain mapping strings, the
per-user domain sets and the global domain set. -/
structure RegState where
  mappings : List Char → Option DomainMapping
  userDomains : String → List (List Char)
  allDomains : List (List Char)

/-- The empty registry. -/
def emptyReg : RegState :=
  { mappings := fun _ => none, userDomains := fun _ => [], allDomains := [] }

/-- Redis `sAdd` on a set modelled as a duplicate-free list. -/
def sAdd (s : List (List Char)) (d : List Char) : List (List Char) :=
  if s.contains d then s else s ++ [d]

/-- Embedding of `DomainRegistryService.findDomainMapping`: direct lookup. -/
def findDomainMapping (st : RegState) (domain : List Char) : Option DomainMapping :=
  st.mappings domain

/-- Embedding of `DomainRegistryService.registerDomain`: one Redis `multi`
batch that unconditionally writes the mapping (`setEx` overwrites), adds
the domain to the user's set and to the global set, then reports `true`.
There is no existence check in this method. -/
def registerDomain (st : RegState) (mapping : DomainMapping) : Bool × RegState :=
  (true,
   { mappings := fun d => if d = mapping.domain then some mapping else st.mappings d,
     userDomains := fun h =>
       if h = mapping.userHandle then sAdd (st.userDomains h) mapping.domain
       else st.userDomains h,
     allDomains := sAdd st.allDomains mapping.domain })

/-- ASCII alphanumeric test, `[a-zA-Z0-9]` of the route's domain regex. -/
def isAlnum (c : Char) : Bool :=
  ('a' ≤ c && c ≤ 'z') || ('A' ≤ c && c ≤ 'Z') || ('0' ≤ c && c ≤ '9')

/-- Character class `[a-zA-Z0-9-]` of the route's domain regex. -/
def isLabelChar (c : Char) : Bool := isAlnum c || c == '-'

/-- One label of the route's domain regex:
`[a-zA-Z0-9]([a-zA-Z0-9-]\x7b0,61\x7d[a-zA-Z0-9])?` — a single
alphanumeric character, or 2 to 63 characters with alphanumeric first and
last characters and label characters in between. -/
def labelOk : List Char → Bool
  | [] => false
  | c :: rest =>
    match rest with
    | [] => isAlnum c
    | _ :: _ =>
      isAlnum c && decide (rest.length ≤ 62) && rest.dropLast.all isLabelChar &&
        isAlnum (rest.getLastD 'a')

/-- The domain-format regex of `router.post('/')` in `routes/domains.ts`:
every dot-separated label matches `labelOk`. -/
def validDomain (d : List Char) : Bool := (splitOnDot d).all labelOk

/-- Result of the domain registration route. -/
inductive RegisterResult where
  | created (mapping : DomainMapping)
  | invalidFormat
  | alreadyRegistered
  | registrationFailed
deriving DecidableEq

/-- The `DomainMapping` object built by `router.post('/')` in
`routes/domains.ts` (status `active`, default settings). -/
def mkDomainMapping (domain : List Char) (handle : String) (did : String)
    (now : Nat) : DomainMapping :=
  { domain := domain, userHandle := handle, userDid := did,
    createdAt := now, updatedAt := now, status := .active,
    settings := { publicAccess := true,
                  allowedMimeTypes := ["image/*", "video/*", "audio/*", "application/pdf"],
                  maxFileSize := 50 * 1024 * 1024 } }

/-- Embedding of `router.post('/')` in `routes/domains.ts`: validate the
domain format, reject when `findDomainMapping` already yields a mapping,
otherwise build the mapping and call `registerDomain`. -/
def registerRoute (st : RegState) (domain : List Char) (handle : String) (did : String)
    (now : Nat) : RegisterResult × RegState :=
  if validDomain domain then
    match findDomainMapping st domain with
    | some _ => (.alreadyRegistered, st)
    | none =>
      let mapping := mkDomainMapping domain handle did now
      let result := registerDomain st mapping
      if result.1 then (.created mapping, result.2)
      else (.registrationFailed, st)
  else (.invalidFormat, st)

/-! ### Theorems -/

/-- C5: the record-key sanitization is a pure deterministic function that
lower-cases, replaces every character outside `[a-z0-9.-]` with `'-'`,
trims leading and trailing `'-'`, and truncates to 64 characters, in that
order; in particular `"MyFile.TXT"` and `"myfile.txt"` sanitize to the
same output. -/
theorem sanitizeKey_pipeline_and_collision :
    (∀ key : List Char, sanitizeKey key = sanitizeKeySpec key) ∧
    sanitizeKey "MyFile.TXT".toList = sanitizeKey "myfile.txt".toList :=
  ⟨fun _ => rfl, by decide⟩

/-- C8: `resolvePdsEndpoint` forms the endpoint from the last two
dot-separated labels of the handle prefixed with `https://`, and returns
the well-known public endpoint `https://bsky.social` whenever the handle
has fewer than two dot-separated labels. -/
theorem extractPds_matches_spec (handle : List Char) :
    extractPdsFromHandle handle = extractPdsSpec handle := by
  unfold extractPdsFromHandle extractPdsSpec
  by_cases h : handle.contains '.' = true
  · have h2 : 2 ≤ (splitOnDot handle).length := (contains_dot_iff_two_le handle).mp h
    simp only [h, if_true]
    rw [if_pos h2, if_neg (Nat.not_lt.mpr h2)]
  · have h2 : ¬ 2 ≤ (splitOnDot handle).length :=
      fun hh => h ((contains_dot_iff_two_le handle).mpr hh)
    have hlt : (splitOnDot handle).length < 2 := Nat.lt_of_not_le h2
    simp [h, hlt]

/-- States whose stored records are keyed by the sanitized form of their
own `key` field — the shape every record written by the upload route has. -/
def WellFormedRecords (st : SysState) : Prop :=
  ∀ rk rec, st.records rk = some rec → sanitizeKey rec.key = rk

/-- C2: uploading and then getting the same key with no version argument
returns exactly the uploaded bytes and the uploaded mime type. -/
theorem upload_then_get (st : SysState) (key : List Char) (bytes : List Nat)
    (mime : String) (comment : Option String) (ev : Bool) (now : Nat)
    (hwf : WellFormedRecords st) (hmime : mime ≠ "") :
    getRoute (uploadRoute st key bytes mime comment ev now).2 key none =
      .ok bytes mime bytes.length none := by
  unfold uploadRoute getRoute
  cases hex : getMappingRecord st key with
  | none =>
    simp [hex, putMappingRecord, getMappingRecord, uploadBlobState, mkBlobInfo, cidOf, hmime]
  | some ex =>
    have hk : sanitizeKey ex.key = sanitizeKey key := hwf _ _ hex
    by_cases hsv : (ev || ex.versioningEnabled) = true
    · simp [hex, hsv, putMappingRecord, getMappingRecord, uploadBlobState, mkBlobInfo,
        cidOf, hmime, hk]
    · simp [hex, hsv, putMappingRecord, getMappingRecord, uploadBlobState, mkBlobInfo,
        cidOf, hmime, hk]

/-- Witness for C2 at a concrete input. -/
theorem upload_then_get_witness :
    getRoute (uploadRoute emptySys "logo".toList [7] "image/png" none false 5).2
        "logo".toList none = .ok [7] "image/png" 1 none :=
  upload_then_get emptySys "logo".toList [7] "image/png" none false 5
    (fun rk rec h => by simp [emptySys] at h) (by decide)

/-- C1 evaluation: after a first upload and a second upload with
`enableVersioning` set, the persisted record's `versions` map holds
exactly one entry — but that entry carries the SECOND upload's blob info
(cid `[2]`), not the first upload's previously-current blob info
(cid `[1]`), because the route archives the freshly built `blobInfo`
instead of `existingRecord.current`.  The first blob is lost from the
record entirely. -/
theorem upload_versioning_archives_new_blob :
    getMappingRecord
      (uploadRoute (uploadRoute emptySys "logo".toList [1] "image/png" none false 10).2
        "logo".toList [2] "image/png" none true 20).2 "logo".toList =
    some { key := "logo".toList,
           current := { cid := [2], mimeType := "image/png", size := 1, uploadedAt := 20 },
           versions := some [(20,
             { info := { cid := [2], mimeType := "image/png", size := 1, uploadedAt := 20 },
               version := 20, comment := none })],
           createdAt := 10, updatedAt := 20, versioningEnabled := true } := by
  decide

/-- A record whose `versions` object is absent, used for concrete states. -/
def noVersionsRecord : CANMappingRecord :=
  { key := "k".toList,
    current := { cid := [9], mimeType := "text/plain", size := 1, uploadedAt := 3 },
    versions := none, createdAt := 3, updatedAt := 3, versioningEnabled := false }

/-- A state holding `noVersionsRecord` and its blob, with an empty cache. -/
def noVersionsState : SysState :=
  { records := fun rk => if rk = sanitizeKey "k".toList then some noVersionsRecord else none,
    blobs := fun c => if c = [9] then some [9] else none,
    cacheMapping := fun _ => none, cacheMetadata := fun _ => none }

/-- C3 counterexample: for a stored record with no `versions` map at all,
a get with a version argument serves the current blob instead of
answering VersionNotFound — the guard `if (version && record.versions)`
skips the version lookup entirely. -/
theorem getRoute_missing_versions_serves_current :
    getRoute noVersionsState "k".toList (some 42) ≠ GetResult.versionNotFound ∧
    getRoute noVersionsState "k".toList (some 42) =
      GetResult.ok [9] "text/plain" 1 none := by
  decide

/-- C3 (amended): when the stored record carries a `versions` map and the
requested entry is absent, the result is VersionNotFound; when the record
has no `versions` map at all, the version argument is ignored and the
request behaves exactly like a get without a version, serving the current
blob. -/
theorem getRoute_version_semantics (st : SysState) (key : List Char) (v : Nat)
    (record : CANMappingRecord) (h : getMappingRecord st key = some record) :
    (∀ vs, record.versions = some vs → List.lookup v vs = none →
      getRoute st key (some v) = GetResult.versionNotFound) ∧
    (record.versions = none →
      getRoute st key (some v) = getRoute st key none) := by
  constructor
  · intro vs hvs hlk
    unfold getRoute
    simp [h, hvs, hlk]
  · intro hvs
    unfold getRoute
    simp [h, hvs]

/-- A record carrying an empty `versions` map, used for concrete states. -/
def emptyVersionsRecord : CANMappingRecord :=
  { key := "k".toList,
    current := { cid := [9], mimeType := "text/plain", size := 1, uploadedAt := 3 },
    versions := some [], createdAt := 3, updatedAt := 3, versioningEnabled := true }

/-- A state holding `emptyVersionsRecord` and its blob, with an empty cache. -/
def emptyVersionsState : SysState :=
  { records := fun rk => if rk = sanitizeKey "k".toList then some emptyVersionsRecord else none,
    blobs := fun c => if c = [9] then some [9] else none,
    cacheMapping := fun _ => none, cacheMetadata := fun _ => none }

/-- Witness for the amended C3 at a concrete input. -/
theorem getRoute_version_semantics_witness :
    (∀ vs, emptyVersionsRecord.versions = some vs → List.lookup 7 vs = none →
      getRoute emptyVersionsState "k".toList (some 7) = GetResult.versionNotFound) ∧
    (emptyVersionsRecord.versions = none →
      getRoute emptyVersionsState "k".toList (some 7) =
        getRoute emptyVersionsState "k".toList none) :=
  getRoute_version_semantics emptyVersionsState "k".toList 7 emptyVersionsRecord (by decide)

/-- A state with the cache pre-populated for the key, via the cache
service's own population operation. -/
def prePopulatedState : SysState := setBlobMapping noVersionsState "k".toList noVersionsRecord

/-- C4 counterexample: the full-delete route reports success while the
pre-populated mapping-cache entry for that exact key is still present —
no blob route ever calls the cache service, so nothing was invalidated or
refreshed before success was reported. -/
theorem deleteRoute_success_without_invalidation :
    (deleteRoute prePopulatedState "k".toList none 9).1 = DeleteResult.blobDeleted ∧
    (deleteRoute prePopulatedState "k".toList none 9).2.cacheMapping "k".toList =
      some noVersionsRecord := by
  decide

/-- C4 (amended): the blob mutation routes leave every cache entry
untouched (the cache service is not wired into them at all); nevertheless,
because the read path never consults the cache either, a get after a full
delete answers BlobNotFound and never the stale cached value. -/
theorem deleteRoute_cache_untouched_and_get_not_found (st : SysState) (key : List Char)
    (record : CANMappingRecord) (now : Nat)
    (h : getMappingRecord st key = some record) :
    (deleteRoute st key none now).1 = DeleteResult.blobDeleted ∧
    (deleteRoute st key none now).2.cacheMapping = st.cacheMapping ∧
    (deleteRoute st key none now).2.cacheMetadata = st.cacheMetadata ∧
    getRoute (deleteRoute st key none now).2 key none = GetResult.blobNotFound := by
  have h' : st.records (sanitizeKey key) = some record := h
  unfold deleteRoute
  simp [getMappingRecord, h', deleteMappingRecord, getRoute]

/-- Witness for the amended C4 at a concrete input. -/
theorem deleteRoute_cache_untouched_witness :
    (deleteRoute prePopulatedState "k".toList none 9).1 = DeleteResult.blobDeleted ∧
    (deleteRoute prePopulatedState "k".toList none 9).2.cacheMapping =
      prePopulatedState.cacheMapping ∧
    (deleteRoute prePopulatedState "k".toList none 9).2.cacheMetadata =
      prePopulatedState.cacheMetadata ∧
    getRoute (deleteRoute prePopulatedState "k".toList none 9).2 "k".toList none =
      GetResult.blobNotFound :=
  deleteRoute_cache_untouched_and_get_not_found prePopulatedState "k".toList
    noVersionsRecord 9 (by decide)

theorem filter_orderedInsert_uploadedAt (t : Nat) (a : BlobVersion) (l : List BlobVersion) :
    (List.orderedInsert vGe a l).filter (fun x => x.info.uploadedAt == t) =
    ((a :: l).filter (fun x => x.info.uploadedAt == t)) := by
  induction l with
  | nil => simp [List.orderedInsert]
  | cons b l ih =>
    by_cases h : vGe a b
    · simp [List.orderedInsert, h]
    · have hba : a.info.uploadedAt < b.info.uploadedAt := Nat.lt_of_not_le h
      simp only [List.orderedInsert, if_neg h]
      by_cases ha : (a.info.uploadedAt == t) = true
      · have hat : a.info.uploadedAt = t := by simpa using ha
        have hbf : (b.info.uploadedAt == t) = false := by
          rw [beq_eq_false_iff_ne]
          omega
        simp [List.filter_cons, ha, hbf, ih]
      · simp [List.filter_cons, ha, ih]

theorem filter_insertionSort_uploadedAt (t : Nat) (l : List BlobVersion) :
    (List.insertionSort vGe l).filter (fun x => x.info.uploadedAt == t) =
    l.filter (fun x => x.info.uploadedAt == t) := by
  induction l with
  | nil => rfl
  | cons a l ih =>
    rw [List.insertionSort, filter_orderedInsert_uploadedAt]
    simp [List.filter_cons, ih]

/-- C7: the version listing returns the current blob info plus a list
that is a permutation of all entries of the `versions` map, sorted by
`uploadedAt` descending, with entries of equal `uploadedAt` kept in the
stable original (insertion) order — expressed by the filter at each
timestamp being unchanged. -/
theorem listVersions_complete_sorted_stable (st : SysState) (key : List Char)
    (record : CANMappingRecord) (h : getMappingRecord st key = some record) :
    listVersionsRoute st key =
      some { key := key, current := record.current,
             versions := List.insertionSort vGe ((record.versions.getD []).map Prod.snd) } ∧
    (List.insertionSort vGe ((record.versions.getD []).map Prod.snd)).Perm
      ((record.versions.getD []).map Prod.snd) ∧
    List.Sorted vGe (List.insertionSort vGe ((record.versions.getD []).map Prod.snd)) ∧
    ∀ t, (List.insertionSort vGe ((record.versions.getD []).map Prod.snd)).filter
          (fun x => x.info.uploadedAt == t) =
        ((record.versions.getD []).map Prod.snd).filter (fun x => x.info.uploadedAt == t) := by
  refine ⟨?_, List.perm_insertionSort vGe _, List.sorted_insertionSort vGe _,
    fun t => filter_insertionSort_uploadedAt t _⟩
  unfold listVersionsRoute
  simp [h]

/-- A record with three archived versions (out of timestamp order in the
map), used as a concrete input. -/
def versionedRecord : CANMappingRecord :=
  { key := "k".toList,
    current := { cid := [1], mimeType := "text/plain", size := 1, uploadedAt := 10 },
    versions := some
      [(5, { info := { cid := [5], mimeType := "text/plain", size := 1, uploadedAt := 5 },
             version := 5, comment := none }),
       (1, { info := { cid := [6], mimeType := "text/plain", size := 1, uploadedAt := 1 },
             version := 1, comment := none }),
       (9, { info := { cid := [7], mimeType := "text/plain", size := 1, uploadedAt := 9 },
             version := 9, comment := none })],
    createdAt := 0, updatedAt := 10, versioningEnabled := true }

/-- A state holding `versionedRecord`, used as a concrete input. -/
def versionedState : SysState :=
  { records := fun rk => if rk = sanitizeKey "k".toList then some versionedRecord else none,
    blobs := fun _ => none, cacheMapping := fun _ => none, cacheMetadata := fun _ => none }

/-- Witness for C7 at a concrete input. -/
theorem listVersions_complete_sorted_stable_witness :
    listVersionsRoute versionedState "k".toList =
      some { key := "k".toList, current := versionedRecord.current,
             versions := List.insertionSort vGe
               ((versionedRecord.versions.getD []).map Prod.snd) } ∧
    (List.insertionSort vGe ((versionedRecord.versions.getD []).map Prod.snd)).Perm
      ((versionedRecord.versions.getD []).map Prod.snd) ∧
    List.Sorted vGe (List.insertionSort vGe
      ((versionedRecord.versions.getD []).map Prod.snd)) ∧
    ∀ t, (List.insertionSort vGe ((versionedRecord.versions.getD []).map Prod.snd)).filter
          (fun x => x.info.uploadedAt == t) =
        ((versionedRecord.versions.getD []).map Prod.snd).filter
          (fun x => x.info.uploadedAt == t) :=
  listVersions_complete_sorted_stable versionedState "k".toList versionedRecord (by decide)

/-- C6: on a state with no mapping for the domain, a first registration
succeeds for owner1; a second registration of the same domain for any
owner2 answers DomainAlreadyRegistered and leaves the registry unchanged;
resolving the domain still reports owner1, and any mapping the registry
yields for that domain belongs to owner1 (at most one mapping per domain —
the registry stores one optional mapping per domain name). -/
theorem domain_register_unique (st : RegState) (d : List Char)
    (h1 did1 h2 did2 : String) (t1 t2 : Nat)
    (hval : validDomain d = true) (hfree : st.mappings d = none) :
    (registerRoute st d h1 did1 t1).1 =
      RegisterResult.created (mkDomainMapping d h1 did1 t1) ∧
    (mkDomainMapping d h1 did1 t1).userHandle = h1 ∧
    (registerRoute (registerRoute st d h1 did1 t1).2 d h2 did2 t2).1 =
      RegisterResult.alreadyRegistered ∧
    (registerRoute (registerRoute st d h1 did1 t1).2 d h2 did2 t2).2 =
      (registerRoute st d h1 did1 t1).2 ∧
    findDomainMapping (registerRoute (registerRoute st d h1 did1 t1).2 d h2 did2 t2).2 d =
      some (mkDomainMapping d h1 did1 t1) ∧
    (∀ m', findDomainMapping
        (registerRoute (registerRoute st d h1 did1 t1).2 d h2 did2 t2).2 d = some m' →
      m'.userHandle = h1) := by
  have e1 : registerRoute st d h1 did1 t1 =
      (RegisterResult.created (mkDomainMapping d h1 did1 t1),
       (registerDomain st (mkDomainMapping d h1 did1 t1)).2) := by
    unfold registerRoute
    simp [hval, findDomainMapping, hfree, registerDomain]
  have e2 : (registerDomain st (mkDomainMapping d h1 did1 t1)).2.mappings d =
      some (mkDomainMapping d h1 did1 t1) := by
    simp [registerDomain, mkDomainMapping]
  have e3 : registerRoute (registerDomain st (mkDomainMapping d h1 did1 t1)).2 d h2 did2 t2 =
      (RegisterResult.alreadyRegistered,
       (registerDomain st (mkDomainMapping d h1 did1 t1)).2) := by
    unfold registerRoute
    simp [hval, findDomainMapping, e2]
  rw [e1]
  simp only [e3]
  refine ⟨trivial, rfl, trivial, trivial, e2, ?_⟩
  intro m' hm'
  unfold findDomainMapping at hm'
  rw [e2] at hm'
  cases hm'
  rfl

/-- Witness for C6 at a concrete input. -/
theorem domain_register_unique_witness :
    (registerRoute emptyReg "example.com".toList "alice" "did:a" 1).1 =
      RegisterResult.created (mkDomainMapping "example.com".toList "alice" "did:a" 1) ∧
    (mkDomainMapping "example.com".toList "alice" "did:a" 1).userHandle = "alice" ∧
    (registerRoute (registerRoute emptyReg "example.com".toList "alice" "did:a" 1).2
        "example.com".toList "bob" "did:b" 2).1 = RegisterResult.alreadyRegistered ∧
    (registerRoute (registerRoute emptyReg "example.com".toList "alice" "did:a" 1).2
        "example.com".toList "bob" "did:b" 2).2 =
      (registerRoute emptyReg "example.com".toList "alice" "did:a" 1).2 ∧
    findDomainMapping (registerRoute (registerRoute emptyReg "example.com".toList
        "alice" "did:a" 1).2 "example.com".toList "bob" "did:b" 2).2 "example.com".toList =
      some (mkDomainMapping "example.com".toList "alice" "did:a" 1) ∧
    (∀ m', findDomainMapping (registerRoute (registerRoute emptyReg "example.com".toList
        "alice" "did:a" 1).2 "example.com".toList "bob" "did:b" 2).2 "example.com".toList =
        some m' → m'.userHandle = "alice") :=
  domain_register_unique emptyReg "example.com".toList "alice" "did:a" "bob" "did:b" 1 2
    (by decide) rfl

/-- C10: the registry-level `registerDomain` performs no existence check:
on a state already holding a mapping for the same domain it still reports
success and silently overwrites the stored mapping with the new one
(last write wins). -/
theorem registerDomain_no_existence_check (st : RegState) (mapping mOld : DomainMapping)
    (_existing : st.mappings mapping.domain = some mOld) :
    (registerDomain st mapping).1 = true ∧
    (registerDomain st mapping).2.mappings mapping.domain = some mapping :=
  ⟨rfl, by simp [registerDomain]⟩

/-- Witness for C10 at a concrete input: the domain is already owned by
alice, and bob's registry-level registration overwrites it. -/
theorem registerDomain_no_existence_check_witness :
    ((registerDomain (registerDomain emptyReg
        (mkDomainMapping "example.com".toList "alice" "did:a" 1)).2
        (mkDomainMapping "example.com".toList "bob" "did:b" 2)).1 = true ∧
     (registerDomain (registerDomain emptyReg
        (mkDomainMapping "example.com".toList "alice" "did:a" 1)).2
        (mkDomainMapping "example.com".toList "bob" "did:b" 2)).2.mappings
        (mkDomainMapping "example.com".toList "bob" "did:b" 2).domain =
       some (mkDomainMapping "example.com".toList "bob" "did:b" 2)) :=
  registerDomain_no_existence_check
    (registerDomain emptyReg (mkDomainMapping "example.com".toList "alice" "did:a" 1)).2
    (mkDomainMapping "example.com".toList "bob" "did:b" 2)
    (mkDomainMapping "example.com".toList "alice" "did:a" 1)
    (by decide)

theorem lookup_filter_self (v : Nat) (vs : List (Nat × BlobVersion)) :
    List.lookup v (vs.filter (fun p => p.1 != v)) = none := by
  induction vs with
  | nil => rfl
  | cons p vs ih =>
    obtain ⟨k, b⟩ := p
    by_cases h : k = v
    · simp [List.filter_cons, h, ih]
    · have hkv : (k != v) = true := by simp [h]
      have hvk : (v == k) = false := by
        rw [beq_eq_false_iff_ne]
        exact fun e => h e.symm
      simp [List.filter_cons, hkv, List.lookup, hvk, ih]

theorem lookup_filter_other (v v' : Nat) (hne : v' ≠ v) (vs : List (Nat × BlobVersion)) :
    List.lookup v' (vs.filter (fun p => p.1 != v)) = List.lookup v' vs := by
  induction vs with
  | nil => rfl
  | cons p vs ih =>
    obtain ⟨k, b⟩ := p
    by_cases h : k = v
    · subst h
      have hvk : (v' == k) = false := by simp [hne]
      simp [List.filter_cons, List.lookup, hvk, ih]
    · have hkv : (k != v) = true := by simp [h]
      simp [List.filter_cons, hkv, List.lookup, ih]

/-- C9: deleting one version removes exactly that entry from `versions`
and persists the record, leaving `current`, `createdAt`,
`versioningEnabled`, the record key, every other version entry, and every
other stored record unchanged; when the requested version is absent (or
the record has no `versions` map), the route answers VersionNotFound and
the state is completely unchanged. -/
theorem deleteRoute_version_frame (st : SysState) (key : List Char) (v : Nat) (now : Nat)
    (record : CANMappingRecord)
    (h : getMappingRecord st key = some record)
    (hk : sanitizeKey record.key = sanitizeKey key) :
    (∀ vs bv, record.versions = some vs → List.lookup v vs = some bv →
      (deleteRoute st key (some v) now).1 = DeleteResult.versionDeleted ∧
      getMappingRecord (deleteRoute st key (some v) now).2 key =
        some { record with
          versions := some (vs.filter (fun p => p.1 != v)),
          updatedAt := now } ∧
      List.lookup v (vs.filter (fun p => p.1 != v)) = none ∧
      (∀ v', v' ≠ v → List.lookup v' (vs.filter (fun p => p.1 != v)) = List.lookup v' vs) ∧
      (∀ rk, rk ≠ sanitizeKey key →
        (deleteRoute st key (some v) now).2.records rk = st.records rk)) ∧
    ((record.versions = none ∨ ∃ vs, record.versions = some vs ∧ List.lookup v vs = none) →
      (deleteRoute st key (some v) now).1 = DeleteResult.versionNotFound ∧
      (deleteRoute st key (some v) now).2 = st) := by
  have h' : st.records (sanitizeKey key) = some record := h
  constructor
  · intro vs bv hvs hbv
    refine ⟨?_, ?_, lookup_filter_self v vs, fun v' hv' => lookup_filter_other v v' hv' vs, ?_⟩
    · unfold deleteRoute
      simp [getMappingRecord, h', hvs, hbv]
    · unfold deleteRoute
      simp [getMappingRecord, h', hvs, hbv, putMappingRecord, hk]
    · intro rk hrk
      unfold deleteRoute
      simp [getMappingRecord, h', hvs, hbv, putMappingRecord, hk, hrk]
  · intro habs
    unfold deleteRoute
    rcases habs with hnone | ⟨vs, hvs, hlk⟩
    · simp [getMappingRecord, h', hnone]
    · simp [getMappingRecord, h', hvs, hlk]

/-- Witness for C9 at a concrete input. -/
theorem deleteRoute_version_frame_witness :
    (∀ vs bv, versionedRecord.versions = some vs → List.lookup 5 vs = some bv →
      (deleteRoute versionedState "k".toList (some 5) 11).1 = DeleteResult.versionDeleted ∧
      getMappingRecord (deleteRoute versionedState "k".toList (some 5) 11).2 "k".toList =
        some { versionedRecord with
          versions := some (vs.filter (fun p => p.1 != 5)),
          updatedAt := 11 } ∧
      List.lookup 5 (vs.filter (fun p => p.1 != 5)) = none ∧
      (∀ v', v' ≠ 5 → List.lookup v' (vs.filter (fun p => p.1 != 5)) = List.lookup v' vs) ∧
      (∀ rk, rk ≠ sanitizeKey "k".toList →
        (deleteRoute versionedState "k".toList (some 5) 11).2.records rk =
          versionedState.records rk)) ∧
    ((versionedRecord.versions = none ∨
        ∃ vs, versionedRecord.versions = some vs ∧ List.lookup 5 vs = none) →
      (deleteRoute versionedState "k".toList (some 5) 11).1 = DeleteResult.versionNotFound ∧
      (deleteRoute versionedState "k".toList (some 5) 11).2 = versionedState) :=
  deleteRoute_version_frame versionedState "k".toList 5 11 versionedRecord (by decide) rfl

end Bucket
